import Mathlib

/-!
Shallow embedding of the BizRadar scan-and-diff core
(`src/bizradar`: `models/business.py`, `api/foursquare_client.py`,
`services/monitoring_service.py`, `services/background_monitor.py`),
together with theorems settling the frozen claims about it.

Modelling conventions:
* Python `float` timestamps and ratings/popularities become `ℚ`.
* Python `Optional[T]` becomes `Option T`.
* A Python dict used as a record (the `location` payload of a place)
  becomes a structure of its relevant keys; a falsy (empty) dict is `none`.
* The SQLite store becomes an association list keyed by `fsq_id`
  (`INSERT OR REPLACE` keyed on `fsq_id` = keyed upsert, lookup by key).
* `datetime.now()` / `time.time()` become an explicit `now : ℚ` argument.
* A `try`-guarded fallible step becomes an `Except String` argument.
-/

/-- Character-list analogue of Python string containment used below:
`charsLead n h` holds when `n` is an initial segment of `h`. -/
def charsLead : List Char → List Char → Bool
  | [], _ => true
  | _ :: _, [] => false
  | a :: as, b :: bs => a == b && charsLead as bs

/-- `charsContain h n = true` iff `n` occurs contiguously inside `h`
(Python `n in h` for strings). -/
def charsContain : List Char → List Char → Bool
  | [], n => n.isEmpty
  | h :: t, n => charsLead n (h :: t) || charsContain t n

/-- Case-insensitive substring test: Python `needle.lower() in hay.lower()`
(`String.toLower` maps `Char.toLower` over the characters). -/
def strContainsCI (hay needle : String) : Bool :=
  charsContain (hay.toList.map Char.toLower) (needle.toList.map Char.toLower)

/-- Python `set(xs) == set(ys)` on string lists: mutual membership. -/
def eqAsSet (xs ys : List String) : Bool :=
  xs.all (fun x => ys.contains x) && ys.all (fun y => xs.contains y)

/-- Python truthiness of an `Optional[float]`: `None` and `0.0` are falsy. -/
def truthyQ : Option ℚ → Bool
  | none => false
  | some x => decide (x ≠ 0)

/-- Geographic location data (`models/business.py`, `Location`). -/
structure Location where
  latitude : ℚ
  longitude : ℚ
  address : Option String := none
  city : Option String := none
  state : Option String := none
  postal_code : Option String := none
  country : Option String := none
deriving DecidableEq

/-- Business operating hours (`models/business.py`, `BusinessHours`). -/
structure BusinessHours where
  monday : Option String := none
  tuesday : Option String := none
  wednesday : Option String := none
  thursday : Option String := none
  friday : Option String := none
  saturday : Option String := none
  sunday : Option String := none
deriving DecidableEq

/-- The relevant keys of the raw `location` dict carried by a Foursquare
place result (`api_data.location` in `update_from_api_data`). -/
structure ApiLocation where
  latitude : Option ℚ := none
  longitude : Option ℚ := none
  address : Option String := none
  locality : Option String := none
  region : Option String := none
  postcode : Option String := none
  country : Option String := none
deriving DecidableEq

/-- Place information from the Foursquare API
(`api/foursquare_client.py`, `PlaceData`).  `location = none` models a
falsy (empty) location dict. -/
structure PlaceData where
  fsq_id : String
  name : String
  categories : List String
  location : Option ApiLocation := none
  rating : Option ℚ := none
  website : Option String := none
  tel : Option String := none
  verified : Bool := false
  popularity : Option ℚ := none
deriving DecidableEq

/-- Main business data model (`models/business.py`, `Business`).
`first_seen` and `last_updated` are total because `__post_init__`
always fills them with `datetime.now()` when absent. -/
structure Business where
  fsq_id : String
  name : String
  categories : List String
  location : Location
  rating : Option ℚ := none
  hours : Option BusinessHours := none
  website : Option String := none
  phone : Option String := none
  verified : Bool := false
  popularity : Option ℚ := none
  first_seen : ℚ
  last_updated : ℚ
  is_competitor : Bool := false
  notes : Option String := none
deriving DecidableEq

/-- The `Location` built inside `update_from_api_data` from the raw
`api_location` dict, with latitude/longitude defaulting to the stored
location's values (`api_location.get('latitude', self.location.latitude)`). -/
def locationFromApi (api : ApiLocation) (cur : Location) : Location :=
  { latitude := api.latitude.getD cur.latitude
    longitude := api.longitude.getD cur.longitude
    address := api.address
    city := api.locality
    state := api.region
    postal_code := api.postcode
    country := api.country }

/-- `Business.update_from_api_data` (`models/business.py` lines 99-152).
Each mutable field is compared with the fetched value and overwritten on
difference; `changes_made` records whether any comparison differed, and
when it did, `last_updated` is bumped to `now`.  Returns the flag
together with the post-call business. -/
def Business.update_from_api_data (b : Business) (p : PlaceData) (now : ℚ) : Bool × Business :=
  let nameChanged : Bool := decide (b.name ≠ p.name)
  let ratingChanged : Bool := decide (b.rating ≠ p.rating)
  let popularityChanged : Bool := decide (b.popularity ≠ p.popularity)
  let verifiedChanged : Bool := decide (b.verified ≠ p.verified)
  let websiteChanged : Bool := decide (b.website ≠ p.website)
  let phoneChanged : Bool := decide (b.phone ≠ p.tel)
  let categoriesChanged : Bool := ! eqAsSet b.categories p.categories
  let newLocation : Location :=
    match p.location with
    | none => b.location
    | some api => locationFromApi api b.location
  let locationChanged : Bool := decide (newLocation ≠ b.location)
  let changes_made : Bool := nameChanged || ratingChanged || popularityChanged ||
    verifiedChanged || websiteChanged || phoneChanged || categoriesChanged || locationChanged
  (changes_made,
   { b with
      name := p.name
      rating := p.rating
      popularity := p.popularity
      verified := p.verified
      website := p.website
      phone := p.tel
      categories := if categoriesChanged then p.categories else b.categories
      location := newLocation
      last_updated := if changes_made then now else b.last_updated })

/-- Monitoring lifecycle status (`models/monitoring.py`, `MonitoringStatus`). -/
inductive MonitoringStatus
  | active
  | paused
  | inactive
deriving DecidableEq

/-- Configuration for business monitoring
(`models/monitoring.py`, `MonitoringSettings`); `__post_init__` replaces
`None` category lists with `[]`, so they are total lists here. -/
structure MonitoringSettings where
  business_name : String := ""
  business_location_lat : ℚ := 0
  business_location_lng : ℚ := 0
  monitoring_radius : Nat := 1000
  scan_interval_minutes : Nat := 60
  categories_to_monitor : List String := []
  exclude_categories : List String := []
  min_rating_threshold : Option ℚ := none
  notify_new_businesses : Bool := true
  notify_rating_changes : Bool := true
  notify_trending : Bool := true
  status : MonitoringStatus := MonitoringStatus.active
deriving DecidableEq

/-- Notification kinds (`models/monitoring.py`, `NotificationType`). -/
inductive NotificationType
  | new_business
  | business_updated
  | trending_activity
  | rating_change
  | competitor_alert
deriving DecidableEq

/-- Notification data model (`models/monitoring.py`, `Notification`),
restricted to the fields the scan path writes. -/
structure Notification where
  type : NotificationType := NotificationType.new_business
  title : String := ""
  business_fsq_id : Option String := none
  business_name : Option String := none
deriving DecidableEq

/-- History record of one monitoring scan
(`models/monitoring.py`, `ScanHistory`). -/
structure ScanHistory where
  businesses_found : Nat := 0
  new_businesses : Nat := 0
  updated_businesses : Nat := 0
  success : Bool := true
  error_message : Option String := none
deriving DecidableEq

/-- The persistent store consumed by the scan path
(`utils/database.py`): businesses keyed by `fsq_id`, plus append-only
notification and scan-history logs and the singleton settings row. -/
structure Database where
  businesses : List (String × Business) := []
  notifications : List Notification := []
  scan_history : List ScanHistory := []
  settings : Option MonitoringSettings := none
deriving DecidableEq

/-- `DatabaseManager.get_business`: lookup by `fsq_id`. -/
def getBusinessFromStore (store : List (String × Business)) (k : String) : Option Business :=
  match store with
  | [] => none
  | (k', b) :: rest => if k' = k then some b else getBusinessFromStore rest k

/-- `DatabaseManager.save_business`: `INSERT OR REPLACE` keyed on
`business.fsq_id`. -/
def saveBusinessToStore (store : List (String × Business)) (b : Business) :
    List (String × Business) :=
  match store with
  | [] => [(b.fsq_id, b)]
  | (k', b') :: rest =>
    if k' = b.fsq_id then (k', b) :: rest else (k', b') :: saveBusinessToStore rest b

/-- `RateLimiter` (`api/foursquare_client.py` lines 30-47): a pruned
list of call timestamps, a cap and a sliding window. -/
structure RateLimiter where
  max_requests : Nat := 50
  time_window : ℚ := 3600
  requests : List ℚ := []
deriving DecidableEq

/-- `RateLimiter.can_make_request`: prune timestamps outside the window
(`now - req_time < time_window` is kept) and compare the remaining count
with the cap.  Returns the pruned limiter and the verdict. -/
def RateLimiter.can_make_request (rl : RateLimiter) (now : ℚ) : RateLimiter × Bool :=
  let kept := rl.requests.filter (fun t => decide (now - t < rl.time_window))
  ({ rl with requests := kept }, decide (kept.length < rl.max_requests))

/-- `RateLimiter.record_request`: append the current timestamp. -/
def RateLimiter.record_request (rl : RateLimiter) (now : ℚ) : RateLimiter :=
  { rl with requests := rl.requests ++ [now] }

/-- HTTP outcome of one attempt of `FoursquareClient._make_request`. -/
inductive HttpResponse
  | status200
  | status429
  | statusOther (code : Nat)
  | exception
deriving DecidableEq

/-- Result of a completed `_make_request` call: a JSON payload or `None`. -/
inductive ReqOutcome
  | json
  | failed
deriving DecidableEq

/-- `FoursquareClient._make_request` (`api/foursquare_client.py` lines
63-86), with the response of the n-th attempt supplied by `responses`.
The recursive 429 branch (`time.sleep(60); return self._make_request(...)`)
is fuelled: `none` means the recursion did not return within `fuel`
attempts (for no amount of fuel, on a persistent 429). -/
def FoursquareClient.make_request (responses : Nat → HttpResponse) (attempt : Nat) :
    (fuel : Nat) → Option ReqOutcome
  | 0 => none
  | fuel + 1 =>
    match responses attempt with
    | .status200 => some .json
    | .status429 => FoursquareClient.make_request responses (attempt + 1) fuel
    | .statusOther _ => some .failed
    | .exception => some .failed

/-- `FoursquareClient.get_trending_places` (`api/foursquare_client.py`
lines 155-163), parametrized by the list `search_nearby` returned:
keep places whose popularity is truthy and greater than 0.7, sort by
popularity (`x.popularity or 0`) descending with a stable sort, take 10. -/
def FoursquareClient.get_trending_places (places : List PlaceData) : List PlaceData :=
  let trending := places.filter (fun place =>
    truthyQ place.popularity && decide ((7 : ℚ)/10 < place.popularity.getD 0))
  (trending.mergeSort (fun a b => decide (b.popularity.getD 0 ≤ a.popularity.getD 0))).take 10

/-- `MonitoringService._should_exclude_business`
(`services/monitoring_service.py` lines 90-103). -/
def MonitoringService.should_exclude_business (p : PlaceData) (s : MonitoringSettings) : Bool :=
  let byCategory : Bool :=
    if s.exclude_categories.isEmpty then false
    else p.categories.any (fun category =>
      s.exclude_categories.any (fun excluded => strContainsCI category excluded))
  let byRating : Bool :=
    if truthyQ s.min_rating_threshold && truthyQ p.rating then
      decide (p.rating.getD 0 < s.min_rating_threshold.getD 0)
    else false
  byCategory || byRating

/-- `MonitoringService._is_potential_competitor`
(`services/monitoring_service.py` lines 140-149). -/
def MonitoringService.is_potential_competitor (p : PlaceData) (s : MonitoringSettings) : Bool :=
  (! s.categories_to_monitor.isEmpty &&
    p.categories.any (fun category =>
      s.categories_to_monitor.any (fun monitored => strContainsCI category monitored)))
  || s.categories_to_monitor.isEmpty

/-- `MonitoringService._create_business_from_place`
(`services/monitoring_service.py` lines 109-138) composed with
`Business.__post_init__`, which stamps both timestamps with now. -/
def MonitoringService.create_business_from_place (p : PlaceData) (s : MonitoringSettings)
    (now : ℚ) : Business :=
  { fsq_id := p.fsq_id
    name := p.name
    categories := p.categories
    location :=
      match p.location with
      | none => { latitude := 0, longitude := 0 }
      | some api =>
        { latitude := api.latitude.getD 0
          longitude := api.longitude.getD 0
          address := api.address
          city := api.locality
          state := api.region
          postal_code := api.postcode
          country := api.country }
    rating := p.rating
    website := p.website
    phone := p.tel
    verified := p.verified
    popularity := p.popularity
    first_seen := now
    last_updated := now
    is_competitor := MonitoringService.is_potential_competitor p s }

/-- The per-place loop of `MonitoringService.perform_scan`
(`services/monitoring_service.py` lines 50-68): skip excluded places,
merge-and-save existing businesses that changed, create-and-save new
ones.  Returns the business store after the loop together with the
`new_businesses` and `updated_businesses` lists, in iteration order. -/
def processPlaces (s : MonitoringSettings) (now : ℚ) (places : List PlaceData)
    (store : List (String × Business)) :
    List (String × Business) × List Business × List Business :=
  match places with
  | [] => (store, [], [])
  | p :: rest =>
    if MonitoringService.should_exclude_business p s then
      processPlaces s now rest store
    else
      match getBusinessFromStore store p.fsq_id with
      | some existing =>
        let step := Business.update_from_api_data existing p now
        if step.1 then
          let tail := processPlaces s now rest (saveBusinessToStore store step.2)
          (tail.1, tail.2.1, step.2 :: tail.2.2)
        else
          processPlaces s now rest store
      | none =>
        let nb := MonitoringService.create_business_from_place p s now
        let tail := processPlaces s now rest (saveBusinessToStore store nb)
        (tail.1, nb :: tail.2.1, tail.2.2)

/-- `MonitoringService._generate_notifications`
(`services/monitoring_service.py` lines 151-178). -/
def MonitoringService.generate_notifications (news upds : List Business)
    (s : MonitoringSettings) : List Notification :=
  (if s.notify_new_businesses && ! news.isEmpty then
    (news.filter (fun b => b.is_competitor)).map (fun b =>
      { type := NotificationType.new_business
        title := "New Competitor Detected"
        business_fsq_id := some b.fsq_id
        business_name := some b.name })
  else []) ++
  (if s.notify_rating_changes && ! upds.isEmpty then
    upds.map (fun b =>
      { type := NotificationType.business_updated
        title := "Competitor Updated"
        business_fsq_id := some b.fsq_id
        business_name := some b.name })
  else [])

/-- `MonitoringService.perform_scan` (`services/monitoring_service.py`
lines 27-88).  `fetched` is the outcome of the guarded fetch phase
(`search_nearby` and anything the try block may raise): `.error e`
models an uncaught exception with text `e`, landing in the `except`
branch; either way the `finally` branch appends exactly one
`ScanHistory` record.  Returns the record and the post-scan store. -/
def MonitoringService.perform_scan (s : MonitoringSettings)
    (fetched : Except String (List PlaceData)) (db : Database) (now : ℚ) :
    ScanHistory × Database :=
  match fetched with
  | .error e =>
    let result : ScanHistory := { success := false, error_message := some e }
    (result, { db with scan_history := db.scan_history ++ [result] })
  | .ok places =>
    let looped := processPlaces s now places db.businesses
    let notifs := MonitoringService.generate_notifications looped.2.1 looped.2.2 s
    let result : ScanHistory :=
      { businesses_found := places.length
        new_businesses := looped.2.1.length
        updated_businesses := looped.2.2.length
        success := true }
    (result,
     { db with
        businesses := looped.1
        notifications := db.notifications ++ notifs
        scan_history := db.scan_history ++ [result] })

/-- Scheduler-relevant state of `BackgroundMonitor`
(`services/background_monitor.py`): the running flag, the cached
settings, the scheduled job intervals (`schedule` registry), whether a
monitor thread was spawned, and the titles of emitted lifecycle
notifications. -/
structure BackgroundMonitorState where
  is_running : Bool := false
  current_settings : Option MonitoringSettings := none
  scheduled_jobs : List Nat := []
  thread_started : Bool := false
  lifecycle_titles : List String := []
deriving DecidableEq

/-- `BackgroundMonitor.start` (`services/background_monitor.py` lines
43-88), with the stored settings row supplied by `stored` (the result
of `db_manager.get_monitoring_settings()`).  Returns the boolean result
and the post-call state. -/
def BackgroundMonitor.start (st : BackgroundMonitorState)
    (stored : Option MonitoringSettings) : Bool × BackgroundMonitorState :=
  if st.is_running then (false, st)
  else
    match stored with
    | none => (false, { st with current_settings := none })
    | some s =>
      if s.status ≠ MonitoringStatus.active then
        (false, { st with current_settings := some s })
      else
        (true,
         { st with
            current_settings := some s
            scheduled_jobs := [s.scan_interval_minutes]
            thread_started := true
            is_running := true
            lifecycle_titles := st.lifecycle_titles ++ ["Monitoring Started"] })

/-- The spec's wording of claim C6's exclusion condition, kept for
comparison with the code's predicate: some category case-insensitively
contains some excluded string as a substring, or the rating is strictly
below the threshold whenever both are present. -/
def specExclusionCond (p : PlaceData) (s : MonitoringSettings) : Prop :=
  (∃ category ∈ p.categories, ∃ excluded ∈ s.exclude_categories,
    strContainsCI category excluded = true) ∨
  (∃ r th, p.rating = some r ∧ s.min_rating_threshold = some th ∧ r < th)

/-- The store invariant the SQLite table guarantees: each row is stored
under its own `fsq_id`. -/
def WellKeyedStore (store : List (String × Business)) : Prop :=
  ∀ kb ∈ store, kb.2.fsq_id = kb.1

/-- Claim C2: on responses that are HTTP 429 after the first, `_make_request`
is claimed to sleep and retry exactly once more, so that a persistent 429
surfaces as a failed call (`None`) after a bounded number of attempts.
The code instead recurses unboundedly: on an all-429 response sequence no
amount of fuel makes the recursion return, and on a sequence that is 429
twice and then 200 the call retries a second time and succeeds instead of
surfacing a failure after the single allowed retry. -/
theorem make_request_unbounded_on_429 :
    (∀ (attempt fuel : Nat),
      FoursquareClient.make_request (fun _ => HttpResponse.status429) attempt fuel = none) ∧
    FoursquareClient.make_request
      (fun n => if n < 2 then HttpResponse.status429 else HttpResponse.status200) 0 3 =
      some ReqOutcome.json := by
  constructor
  · intro attempt fuel
    induction fuel generalizing attempt with
    | zero => rfl
    | succ n ih => simpa [FoursquareClient.make_request] using ih (attempt + 1)
  · rfl

/-- Claim C7: `can_make_request` discards recorded timestamps at or older
than the time window and permits exactly when the remaining count is
strictly below the cap; with `max_requests = 3` and `time_window = 60`,
three immediate calls are each permitted and a fourth at time `t` within
the window is denied, becoming permitted exactly once the window has
elapsed past the earliest recorded call (`60 ≤ t`). -/
theorem rate_limiter_window_cap :
    (∀ (rl : RateLimiter) (now : ℚ),
      (∀ t : ℚ, t ∈ (rl.can_make_request now).1.requests ↔
        t ∈ rl.requests ∧ now - t < rl.time_window) ∧
      ((rl.can_make_request now).2 = true ↔
        (rl.can_make_request now).1.requests.length < rl.max_requests)) ∧
    (∀ t : ℚ,
      (RateLimiter.can_make_request ⟨3, 60, []⟩ 0).2 = true ∧
      (RateLimiter.can_make_request (RateLimiter.record_request ⟨3, 60, []⟩ 0) 0).2 = true ∧
      (RateLimiter.can_make_request
        (RateLimiter.record_request (RateLimiter.record_request ⟨3, 60, []⟩ 0) 0) 0).2 = true ∧
      (RateLimiter.can_make_request
        (RateLimiter.record_request (RateLimiter.record_request
          (RateLimiter.record_request ⟨3, 60, []⟩ 0) 0) 0) t).2 = decide (60 ≤ t)) := by
  constructor
  · intro rl now
    constructor
    · intro t
      simp [RateLimiter.can_make_request, List.mem_filter]
    · simp [RateLimiter.can_make_request]
  · intro t
    refine ⟨by norm_num [RateLimiter.can_make_request, RateLimiter.record_request],
      by norm_num [RateLimiter.can_make_request, RateLimiter.record_request],
      by norm_num [RateLimiter.can_make_request, RateLimiter.record_request], ?_⟩
    rcases lt_or_le t 60 with h | h
    · have h60 : ¬ (60 ≤ t) := not_le.mpr h
      simp [RateLimiter.can_make_request, RateLimiter.record_request, h, h60,
        List.filter_cons]
    · have hn : ¬ (t < 60) := not_lt.mpr h
      simp [RateLimiter.can_make_request, RateLimiter.record_request, hn, h,
        List.filter_cons]

/-- Claim C9: `BackgroundMonitor.start` requires stored settings to exist
with status Active; when either precondition fails on a stopped monitor,
it returns failure, stays not running, schedules no job, spawns no
thread, and emits no lifecycle notification. -/
theorem background_monitor_start_preconditions :
    ∀ (st : BackgroundMonitorState) (stored : Option MonitoringSettings),
      st.is_running = false →
      (stored = none ∨ ∃ s, stored = some s ∧ s.status ≠ MonitoringStatus.active) →
      (BackgroundMonitor.start st stored).1 = false ∧
      (BackgroundMonitor.start st stored).2.is_running = false ∧
      (BackgroundMonitor.start st stored).2.scheduled_jobs = st.scheduled_jobs ∧
      (BackgroundMonitor.start st stored).2.thread_started = st.thread_started ∧
      (BackgroundMonitor.start st stored).2.lifecycle_titles = st.lifecycle_titles := by
  intro st stored hrun hpre
  rcases hpre with h | ⟨s, hs, hstat⟩
  · subst h
    simp [BackgroundMonitor.start, hrun]
  · subst hs
    simp [BackgroundMonitor.start, hrun, hstat]

/-- Witness for `background_monitor_start_preconditions` at a fresh state
and paused settings. -/
theorem background_monitor_start_preconditions_witness :
    (BackgroundMonitor.start {} (some { status := MonitoringStatus.paused })).1 = false ∧
    (BackgroundMonitor.start {} (some { status := MonitoringStatus.paused })).2.is_running = false := by
  have h := background_monitor_start_preconditions {} (some { status := MonitoringStatus.paused })
    rfl (Or.inr ⟨_, rfl, by decide⟩)
  exact ⟨h.1, h.2.1⟩

/-- Claim C8: `perform_scan` appends exactly one `ScanHistory` record per
attempt, succeed or fail; on an uncaught failure the record carries
`success = false` and the exception text, the counts stay zero and the
store of businesses and notifications is untouched, and the record is
returned rather than the exception propagating; on success the record
carries `success = true` and no error text. -/
theorem perform_scan_one_record_per_attempt :
    ∀ (s : MonitoringSettings) (fetched : Except String (List PlaceData))
      (db : Database) (now : ℚ),
      (MonitoringService.perform_scan s fetched db now).2.scan_history =
        db.scan_history ++ [(MonitoringService.perform_scan s fetched db now).1] ∧
      (∀ e, fetched = Except.error e →
        (MonitoringService.perform_scan s fetched db now).1.success = false ∧
        (MonitoringService.perform_scan s fetched db now).1.error_message = some e ∧
        (MonitoringService.perform_scan s fetched db now).1.new_businesses = 0 ∧
        (MonitoringService.perform_scan s fetched db now).1.updated_businesses = 0 ∧
        (MonitoringService.perform_scan s fetched db now).2.businesses = db.businesses ∧
        (MonitoringService.perform_scan s fetched db now).2.notifications = db.notifications) ∧
      (∀ places, fetched = Except.ok places →
        (MonitoringService.perform_scan s fetched db now).1.success = true ∧
        (MonitoringService.perform_scan s fetched db now).1.error_message = none) := by
  intro s fetched db now
  cases fetched with
  | error e =>
    refine ⟨rfl, ?_, ?_⟩
    · intro e' he'
      cases he'
      exact ⟨rfl, rfl, rfl, rfl, rfl, rfl⟩
    · intro places h
      cases h
  | ok places =>
    refine ⟨rfl, ?_, ?_⟩
    · intro e' he'
      cases he'
    · intro places' h
      cases h
      exact ⟨rfl, rfl⟩

/-- Witness for `perform_scan_one_record_per_attempt` on a failed fetch. -/
theorem perform_scan_one_record_per_attempt_witness :
    (MonitoringService.perform_scan {} (Except.error "API down") {} 0).1.success = false ∧
    (MonitoringService.perform_scan {} (Except.error "API down") {} 0).1.error_message =
      some "API down" := by
  have h := (perform_scan_one_record_per_attempt {} (Except.error "API down") {} 0).2.1
    "API down" rfl
  exact ⟨h.1, h.2.1⟩

/-- Claim C10: because the rating check tests truthiness rather than
presence, a rating of exactly 0 is never excluded by the minimum-rating
check, and a threshold of exactly 0 disables rating-based exclusion:
in either case `_should_exclude_business` can only return true via the
excluded-categories check. -/
theorem rating_zero_disables_rating_exclusion :
    ∀ (p : PlaceData) (s : MonitoringSettings),
      p.rating = some 0 ∨ s.min_rating_threshold = some 0 →
      (MonitoringService.should_exclude_business p s = true ↔
        ∃ category ∈ p.categories, ∃ excluded ∈ s.exclude_categories,
          strContainsCI category excluded = true) := by
  intro p s h
  have hrating :
      (truthyQ s.min_rating_threshold && truthyQ p.rating) = false := by
    rcases h with h | h <;> simp [h, truthyQ]
  rw [MonitoringService.should_exclude_business]
  simp only [hrating, Bool.false_eq_true, if_false, Bool.or_false]
  by_cases hempty : s.exclude_categories.isEmpty
  · have : s.exclude_categories = [] := List.isEmpty_iff.mp hempty
    simp [hempty, this]
  · simp [hempty, List.any_eq_true]

/-- Witness for `rating_zero_disables_rating_exclusion`: a place with
rating exactly 0 below a threshold of 3 is not excluded when no category
matches. -/
theorem rating_zero_disables_rating_exclusion_witness :
    ¬ (MonitoringService.should_exclude_business
        { fsq_id := "w1", name := "Zero Rated", categories := ["Cafe"], rating := some 0 }
        { min_rating_threshold := some 3 } = true) := by
  rw [rating_zero_disables_rating_exclusion _ _ (Or.inl rfl)]
  simp

/-- Python set equality on string lists is mutual membership. -/
theorem eqAsSet_iff (xs ys : List String) :
    eqAsSet xs ys = true ↔ ∀ c, c ∈ xs ↔ c ∈ ys := by
  simp only [eqAsSet, Bool.and_eq_true, List.all_eq_true]
  constructor
  · rintro ⟨h1, h2⟩ c
    constructor
    · intro hc
      simpa using h1 c hc
    · intro hc
      simpa using h2 c hc
  · intro h
    exact ⟨fun c hc => by simpa using (h c).mp hc, fun c hc => by simpa using (h c).mpr hc⟩

/-- Set equality of a list with itself. -/
theorem eqAsSet_refl (xs : List String) : eqAsSet xs xs = true :=
  (eqAsSet_iff xs xs).mpr (fun _ => Iff.rfl)

/-- Rebuilding a location from the same raw dict is idempotent. -/
theorem locationFromApi_idem (api : ApiLocation) (cur : Location) :
    locationFromApi api (locationFromApi api cur) = locationFromApi api cur := by
  cases h1 : api.latitude <;> cases h2 : api.longitude <;>
    simp [locationFromApi, h1, h2]

/-- The change flag computed by `update_from_api_data`, in closed form;
it does not depend on `now`. -/
theorem update_fst_eq (b : Business) (p : PlaceData) (now : ℚ) :
    (Business.update_from_api_data b p now).1 =
      (decide (b.name ≠ p.name) || decide (b.rating ≠ p.rating) ||
       decide (b.popularity ≠ p.popularity) || decide (b.verified ≠ p.verified) ||
       decide (b.website ≠ p.website) || decide (b.phone ≠ p.tel) ||
       ! eqAsSet b.categories p.categories ||
       decide ((match p.location with
                | none => b.location
                | some api => locationFromApi api b.location) ≠ b.location)) := rfl

/-- When no field differed, the business is returned unchanged. -/
theorem update_snd_of_fst_false (b : Business) (p : PlaceData) (now : ℚ)
    (h : (Business.update_from_api_data b p now).1 = false) :
    (Business.update_from_api_data b p now).2 = b := by
  rw [update_fst_eq] at h
  simp only [Bool.or_eq_false_iff, decide_eq_false_iff_not, not_not,
    Bool.not_eq_true'] at h
  obtain ⟨⟨⟨⟨⟨⟨⟨hname, hrating⟩, hpop⟩, hver⟩, hweb⟩, hphone⟩, hcat⟩, hloc⟩ := h
  simp [Business.update_from_api_data, ← hname, ← hrating, ← hpop, ← hver, ← hweb,
    ← hphone, hcat, hloc]

/-- The change flag ignores the clock. -/
theorem update_fst_time_independent (b : Business) (p : PlaceData) (now now2 : ℚ) :
    (Business.update_from_api_data b p now2).1 = (Business.update_from_api_data b p now).1 := by
  rw [update_fst_eq, update_fst_eq]

/-- A business the merge reports unchanged stays a fixed point of the
merge at every later time. -/
theorem update_stable_of_fst_false (b : Business) (p : PlaceData) (now : ℚ)
    (h : (Business.update_from_api_data b p now).1 = false) :
    ∀ now2, Business.update_from_api_data b p now2 = (false, b) := by
  intro now2
  have h2 : (Business.update_from_api_data b p now2).1 = false :=
    (update_fst_time_independent b p now now2).trans h
  exact Prod.ext h2 (update_snd_of_fst_false b p now2 h2)

/-- Field projections of the merged business. -/
theorem update_snd_name (b : Business) (p : PlaceData) (now : ℚ) :
    (Business.update_from_api_data b p now).2.name = p.name := rfl

theorem update_snd_rating (b : Business) (p : PlaceData) (now : ℚ) :
    (Business.update_from_api_data b p now).2.rating = p.rating := rfl

theorem update_snd_popularity (b : Business) (p : PlaceData) (now : ℚ) :
    (Business.update_from_api_data b p now).2.popularity = p.popularity := rfl

theorem update_snd_verified (b : Business) (p : PlaceData) (now : ℚ) :
    (Business.update_from_api_data b p now).2.verified = p.verified := rfl

theorem update_snd_website (b : Business) (p : PlaceData) (now : ℚ) :
    (Business.update_from_api_data b p now).2.website = p.website := rfl

theorem update_snd_phone (b : Business) (p : PlaceData) (now : ℚ) :
    (Business.update_from_api_data b p now).2.phone = p.tel := rfl

theorem update_snd_first_seen (b : Business) (p : PlaceData) (now : ℚ) :
    (Business.update_from_api_data b p now).2.first_seen = b.first_seen := rfl

theorem update_snd_fsq_id (b : Business) (p : PlaceData) (now : ℚ) :
    (Business.update_from_api_data b p now).2.fsq_id = b.fsq_id := rfl

theorem update_snd_location (b : Business) (p : PlaceData) (now : ℚ) :
    (Business.update_from_api_data b p now).2.location =
      (match p.location with
       | none => b.location
       | some api => locationFromApi api b.location) := rfl

theorem update_snd_categories (b : Business) (p : PlaceData) (now : ℚ) :
    (Business.update_from_api_data b p now).2.categories =
      (if ! eqAsSet b.categories p.categories then p.categories else b.categories) := rfl

theorem update_snd_last_updated (b : Business) (p : PlaceData) (now : ℚ) :
    (Business.update_from_api_data b p now).2.last_updated =
      (if (Business.update_from_api_data b p now).1 then now else b.last_updated) := rfl

/-- Every member of the merged category list is a member of the fetched
one and conversely. -/
theorem update_snd_categories_mem (b : Business) (p : PlaceData) (now : ℚ) (c : String) :
    c ∈ (Business.update_from_api_data b p now).2.categories ↔ c ∈ p.categories := by
  rw [update_snd_categories]
  by_cases h : eqAsSet b.categories p.categories
  · simp [h, (eqAsSet_iff b.categories p.categories).mp h c]
  · have h' : eqAsSet b.categories p.categories = false := by simpa using h
    simp [h']

/-- Merging a second time with the same fetched data reports no change
and leaves the business fixed. -/
theorem update_update_stable (b : Business) (p : PlaceData) (now : ℚ) :
    ∀ now2, Business.update_from_api_data (Business.update_from_api_data b p now).2 p now2 =
      (false, (Business.update_from_api_data b p now).2) := by
  have hcat : eqAsSet (Business.update_from_api_data b p now).2.categories p.categories
      = true :=
    (eqAsSet_iff _ _).mpr (fun c => update_snd_categories_mem b p now c)
  have hfst : (Business.update_from_api_data (Business.update_from_api_data b p now).2 p now).1
      = false := by
    cases hpl : p.location with
    | none =>
      simp [update_fst_eq, hpl, update_snd_name, update_snd_rating, update_snd_popularity,
        update_snd_verified, update_snd_website, update_snd_phone, hcat]
    | some api =>
      have hloc : locationFromApi api (Business.update_from_api_data b p now).2.location =
          (Business.update_from_api_data b p now).2.location := by
        rw [update_snd_location, hpl]
        exact locationFromApi_idem api b.location
      simp [update_fst_eq, hpl, update_snd_name, update_snd_rating, update_snd_popularity,
        update_snd_verified, update_snd_website, update_snd_phone, hcat, hloc]
  exact update_stable_of_fst_false _ p now hfst

/-- Failure of Python set equality is failure of mutual membership. -/
theorem eqAsSet_eq_false_iff (xs ys : List String) :
    eqAsSet xs ys = false ↔ ¬ (∀ c, c ∈ xs ↔ c ∈ ys) := by
  rw [← eqAsSet_iff xs ys]
  exact ⟨fun h => by simp [h], fun h => by simpa using h⟩

/-- Claim C1: `update_from_api_data` reports a change exactly when some
mutable field (name, rating, popularity, verification flag, website,
phone, categories as sets, or the location recomputed from a present raw
location dict) differs from the stored value; on a change every field
carries the fetched value afterwards, `last_updated` is bumped to now
and `first_seen` is untouched; on no change the business is returned
exactly as stored. -/
theorem update_from_api_data_merge_spec :
    ∀ (b : Business) (p : PlaceData) (now : ℚ),
      ((Business.update_from_api_data b p now).1 = true ↔
        (b.name ≠ p.name ∨ b.rating ≠ p.rating ∨ b.popularity ≠ p.popularity ∨
         b.verified ≠ p.verified ∨ b.website ≠ p.website ∨ b.phone ≠ p.tel ∨
         ¬ (∀ c, c ∈ b.categories ↔ c ∈ p.categories) ∨
         (∃ api, p.location = some api ∧ locationFromApi api b.location ≠ b.location))) ∧
      ((Business.update_from_api_data b p now).1 = true →
        (Business.update_from_api_data b p now).2.name = p.name ∧
        (Business.update_from_api_data b p now).2.rating = p.rating ∧
        (Business.update_from_api_data b p now).2.popularity = p.popularity ∧
        (Business.update_from_api_data b p now).2.verified = p.verified ∧
        (Business.update_from_api_data b p now).2.website = p.website ∧
        (Business.update_from_api_data b p now).2.phone = p.tel ∧
        (∀ c, c ∈ (Business.update_from_api_data b p now).2.categories ↔ c ∈ p.categories) ∧
        (∀ api, p.location = some api →
          (Business.update_from_api_data b p now).2.location = locationFromApi api b.location) ∧
        (p.location = none →
          (Business.update_from_api_data b p now).2.location = b.location) ∧
        (Business.update_from_api_data b p now).2.last_updated = now ∧
        (Business.update_from_api_data b p now).2.first_seen = b.first_seen) ∧
      ((Business.update_from_api_data b p now).1 = false →
        (Business.update_from_api_data b p now).2 = b) := by
  intro b p now
  refine ⟨?_, ?_, update_snd_of_fst_false b p now⟩
  · cases hpl : p.location with
    | none =>
      simp [update_fst_eq, hpl, Bool.or_eq_true, decide_eq_true_eq,
        Bool.not_eq_true', eqAsSet_eq_false_iff]
      simp only [or_assoc]
    | some api =>
      simp [update_fst_eq, hpl, Bool.or_eq_true, decide_eq_true_eq,
        Bool.not_eq_true', eqAsSet_eq_false_iff]
      simp only [or_assoc]
  · intro h
    refine ⟨update_snd_name b p now, update_snd_rating b p now,
      update_snd_popularity b p now, update_snd_verified b p now,
      update_snd_website b p now, update_snd_phone b p now,
      update_snd_categories_mem b p now, ?_, ?_, ?_,
      update_snd_first_seen b p now⟩
    · intro api hpl
      rw [update_snd_location, hpl]
    · intro hpl
      rw [update_snd_location, hpl]
    · rw [update_snd_last_updated, h]
      rfl

/-- Witness for `update_from_api_data_merge_spec`: stored rating 4,
fetched rating 4.5; the merge reports a change, stores 4.5, advances
`last_updated` and keeps `first_seen`. -/
theorem update_from_api_data_merge_spec_witness :
    (Business.update_from_api_data
      { fsq_id := "w", name := "Cafe", categories := ["Coffee"],
        location := { latitude := 1, longitude := 2 }, rating := some 4,
        first_seen := 10, last_updated := 10 }
      { fsq_id := "w", name := "Cafe", categories := ["Coffee"], rating := some (9/2) }
      11).1 = true ∧
    (Business.update_from_api_data
      { fsq_id := "w", name := "Cafe", categories := ["Coffee"],
        location := { latitude := 1, longitude := 2 }, rating := some 4,
        first_seen := 10, last_updated := 10 }
      { fsq_id := "w", name := "Cafe", categories := ["Coffee"], rating := some (9/2) }
      11).2.rating = some (9/2) ∧
    (Business.update_from_api_data
      { fsq_id := "w", name := "Cafe", categories := ["Coffee"],
        location := { latitude := 1, longitude := 2 }, rating := some 4,
        first_seen := 10, last_updated := 10 }
      { fsq_id := "w", name := "Cafe", categories := ["Coffee"], rating := some (9/2) }
      11).2.last_updated = 11 ∧
    (Business.update_from_api_data
      { fsq_id := "w", name := "Cafe", categories := ["Coffee"],
        location := { latitude := 1, longitude := 2 }, rating := some 4,
        first_seen := 10, last_updated := 10 }
      { fsq_id := "w", name := "Cafe", categories := ["Coffee"], rating := some (9/2) }
      11).2.first_seen = 10 := by
  have h := update_from_api_data_merge_spec
    { fsq_id := "w", name := "Cafe", categories := ["Coffee"],
      location := { latitude := 1, longitude := 2 }, rating := some 4,
      first_seen := 10, last_updated := 10 }
    { fsq_id := "w", name := "Cafe", categories := ["Coffee"], rating := some (9/2) }
    11
  have h1 := h.1.mpr (Or.inr (Or.inl (by norm_num)))
  obtain ⟨-, hrating, -, -, -, -, -, -, -, hlu, hfs⟩ := h.2.1 h1
  exact ⟨h1, hrating, hlu, hfs⟩

/-- Characterization of `_should_exclude_business`: the category check
is an existential substring match, and the rating check fires only when
rating and threshold are both truthy (present and nonzero). -/
theorem should_exclude_iff (p : PlaceData) (s : MonitoringSettings) :
    MonitoringService.should_exclude_business p s = true ↔
      ((∃ category ∈ p.categories, ∃ excluded ∈ s.exclude_categories,
         strContainsCI category excluded = true) ∨
       (∃ r th, p.rating = some r ∧ s.min_rating_threshold = some th ∧
         r ≠ 0 ∧ th ≠ 0 ∧ r < th)) := by
  rw [MonitoringService.should_exclude_business]
  simp only [Bool.or_eq_true]
  apply or_congr
  · by_cases hempty : s.exclude_categories.isEmpty
    · have : s.exclude_categories = [] := List.isEmpty_iff.mp hempty
      simp [hempty, this]
    · simp [hempty, List.any_eq_true]
  · cases hth : s.min_rating_threshold with
    | none => simp [truthyQ, hth]
    | some th =>
      cases hr : p.rating with
      | none => simp [truthyQ, hth, hr]
      | some r =>
        by_cases hth0 : th = 0
        · simp [truthyQ, hth, hr, hth0]
        · by_cases hr0 : r = 0
          · simp [truthyQ, hth, hr, hth0, hr0]
          · simp [truthyQ, hth, hr, hth0, hr0]

/-- When every fetched place is excluded, the scan loop changes nothing
and accumulates no new or updated businesses. -/
theorem processPlaces_all_excluded (s : MonitoringSettings) (now : ℚ)
    (places : List PlaceData) (store : List (String × Business))
    (h : ∀ q ∈ places, MonitoringService.should_exclude_business q s = true) :
    processPlaces s now places store = (store, [], []) := by
  induction places with
  | nil => rfl
  | cons q rest ih =>
    rw [processPlaces]
    simp [h q (List.mem_cons_self q rest),
      ih (fun q' hq' => h q' (List.mem_cons_of_mem q hq'))]

/-- Claim C6 as stated is wrong at a present-but-zero rating: the code
tests truthiness, so a rating of exactly 0 below a present threshold of
3 is not excluded although the claim's condition holds there. -/
theorem should_exclude_presence_counterexample :
    ¬ (MonitoringService.should_exclude_business
        { fsq_id := "c6", name := "Zero Rated", categories := [], rating := some 0 }
        { min_rating_threshold := some 3 } = true ↔
      specExclusionCond
        { fsq_id := "c6", name := "Zero Rated", categories := [], rating := some 0 }
        { min_rating_threshold := some 3 }) := by
  intro h
  have hspec : specExclusionCond
      { fsq_id := "c6", name := "Zero Rated", categories := [], rating := some 0 }
      { min_rating_threshold := some 3 } :=
    Or.inr ⟨0, 3, rfl, rfl, by norm_num⟩
  have hcode := h.mpr hspec
  have : MonitoringService.should_exclude_business
      { fsq_id := "c6", name := "Zero Rated", categories := [], rating := some 0 }
      { min_rating_threshold := some 3 } = false := by
    simp [MonitoringService.should_exclude_business, truthyQ]
  rw [this] at hcode
  exact Bool.false_ne_true hcode

/-- Claim C6, amended for truthiness: `_should_exclude_business` returns
true iff some category case-insensitively contains some excluded string,
or rating and threshold are both present and nonzero with the rating
strictly below the threshold; a place categorized "Gas Station" under an
excluded category "Gas" is always excluded, and a scan whose fetched
places are all excluded never touches the business store and creates no
record. -/
theorem should_exclude_spec_amended :
    ∀ (p : PlaceData) (s : MonitoringSettings),
      (MonitoringService.should_exclude_business p s = true ↔
        ((∃ category ∈ p.categories, ∃ excluded ∈ s.exclude_categories,
           strContainsCI category excluded = true) ∨
         (∃ r th, p.rating = some r ∧ s.min_rating_threshold = some th ∧
           r ≠ 0 ∧ th ≠ 0 ∧ r < th))) ∧
      (p.categories = ["Gas Station"] → "Gas" ∈ s.exclude_categories →
        MonitoringService.should_exclude_business p s = true) ∧
      (∀ (db : Database) (now : ℚ) (places : List PlaceData),
        (∀ q ∈ places, MonitoringService.should_exclude_business q s = true) →
        (MonitoringService.perform_scan s (Except.ok places) db now).2.businesses =
          db.businesses ∧
        (MonitoringService.perform_scan s (Except.ok places) db now).1.new_businesses = 0 ∧
        (MonitoringService.perform_scan s (Except.ok places) db now).1.updated_businesses
          = 0) := by
  intro p s
  refine ⟨should_exclude_iff p s, ?_, ?_⟩
  · intro hcat hgas
    apply (should_exclude_iff p s).mpr
    refine Or.inl ⟨"Gas Station", ?_, "Gas", hgas, ?_⟩
    · rw [hcat]
      exact List.mem_singleton.mpr rfl
    · decide
  · intro db now places hall
    have hp := processPlaces_all_excluded s now places db.businesses hall
    refine ⟨?_, ?_, ?_⟩ <;>
      simp [MonitoringService.perform_scan, hp]

/-- Witness for `should_exclude_spec_amended` at the gas-station place. -/
theorem should_exclude_spec_amended_witness :
    MonitoringService.should_exclude_business
      { fsq_id := "g1", name := "Shell", categories := ["Gas Station"] }
      { exclude_categories := ["Gas"] } = true := by
  exact (should_exclude_spec_amended
    { fsq_id := "g1", name := "Shell", categories := ["Gas Station"] }
    { exclude_categories := ["Gas"] }).2.1 rfl (List.mem_singleton.mpr rfl)

/-- Claim C5: `get_trending_places` over the places `search_nearby`
returned keeps exactly the places whose popularity is present and above
0.7, in descending popularity order, capped at 10: the result is sorted
descending, each member comes from the input with popularity above 0.7,
its length is exactly the number of qualifying places capped at 10, it
is contained (as a multiset) in the qualifying places, every qualifying
place left out is no more popular than every returned one (so the
result is a top-10 selection), it is a permutation of all qualifying
places whenever at most 10 qualify, and on four places with popularity
0.9, 0.8, 0.6, 0.5 the result is exactly the 0.9 and 0.8 places in that
order. -/
theorem get_trending_places_spec :
    ∀ (places : List PlaceData),
      ((FoursquareClient.get_trending_places places).Pairwise
        (fun a b => b.popularity.getD 0 ≤ a.popularity.getD 0)) ∧
      (∀ q ∈ FoursquareClient.get_trending_places places,
        q ∈ places ∧ ∃ x, q.popularity = some x ∧ (7 : ℚ)/10 < x) ∧
      ((FoursquareClient.get_trending_places places).length ≤ 10) ∧
      ((FoursquareClient.get_trending_places places).length =
        min 10 (places.filter (fun q =>
          truthyQ q.popularity && decide ((7 : ℚ)/10 < q.popularity.getD 0))).length) ∧
      (List.Subperm (FoursquareClient.get_trending_places places)
        (places.filter (fun q =>
          truthyQ q.popularity && decide ((7 : ℚ)/10 < q.popularity.getD 0)))) ∧
      (∀ q ∈ places.filter (fun q =>
          truthyQ q.popularity && decide ((7 : ℚ)/10 < q.popularity.getD 0)),
        q ∉ FoursquareClient.get_trending_places places →
        ∀ q' ∈ FoursquareClient.get_trending_places places,
          q.popularity.getD 0 ≤ q'.popularity.getD 0) ∧
      ((places.filter (fun q =>
          truthyQ q.popularity && decide ((7 : ℚ)/10 < q.popularity.getD 0))).length ≤ 10 →
        (FoursquareClient.get_trending_places places).Perm
          (places.filter (fun q =>
            truthyQ q.popularity && decide ((7 : ℚ)/10 < q.popularity.getD 0)))) ∧
      (∀ p1 p2 p3 p4 : PlaceData,
        p1.popularity = some (9/10) → p2.popularity = some (8/10) →
        p3.popularity = some (6/10) → p4.popularity = some (1/2) →
        FoursquareClient.get_trending_places [p1, p2, p3, p4] = [p1, p2]) := by
  have htrans : ∀ (a b c : PlaceData),
      decide (b.popularity.getD 0 ≤ a.popularity.getD 0) = true →
      decide (c.popularity.getD 0 ≤ b.popularity.getD 0) = true →
      decide (c.popularity.getD 0 ≤ a.popularity.getD 0) = true := by
    intro a b c hab hbc
    exact decide_eq_true (le_trans (of_decide_eq_true hbc) (of_decide_eq_true hab))
  have htotal : ∀ (a b : PlaceData),
      (decide (b.popularity.getD 0 ≤ a.popularity.getD 0) ||
       decide (a.popularity.getD 0 ≤ b.popularity.getD 0)) = true := by
    intro a b
    rcases le_total (b.popularity.getD 0) (a.popularity.getD 0) with h | h
    · simp [h]
    · simp [h]
  intro places
  refine ⟨?_, ?_, ?_, ?_, ?_, ?_, ?_, ?_⟩
  · have hs := List.sorted_mergeSort htrans htotal
      (places.filter (fun q =>
        truthyQ q.popularity && decide ((7 : ℚ)/10 < q.popularity.getD 0)))
    have hp := List.Pairwise.sublist (List.take_sublist 10 _) hs
    exact hp.imp (fun h => of_decide_eq_true h)
  · intro q hq
    have hmem := List.mem_of_mem_take hq
    rw [List.mem_mergeSort] at hmem
    rw [List.mem_filter] at hmem
    obtain ⟨hin, hpred⟩ := hmem
    refine ⟨hin, ?_⟩
    cases hpop : q.popularity with
    | none => rw [hpop] at hpred; simp [truthyQ] at hpred
    | some x =>
      refine ⟨x, rfl, ?_⟩
      rw [hpop] at hpred
      simp [truthyQ] at hpred
      exact hpred.2
  · simp [FoursquareClient.get_trending_places]
  · show (((places.filter _).mergeSort _).take 10).length = min 10 _
    rw [List.length_take, List.length_mergeSort]
  · exact List.Subperm.trans (List.Sublist.subperm (List.take_sublist 10 _))
      (List.Perm.subperm (List.mergeSort_perm _ _))
  · intro q hq hqnot q' hq'
    have hqnot2 : q ∉ (((places.filter (fun q =>
        truthyQ q.popularity && decide ((7 : ℚ)/10 < q.popularity.getD 0))).mergeSort
          (fun a b => decide (b.popularity.getD 0 ≤ a.popularity.getD 0))).take 10) := hqnot
    have hq2 : q' ∈ (((places.filter (fun q =>
        truthyQ q.popularity && decide ((7 : ℚ)/10 < q.popularity.getD 0))).mergeSort
          (fun a b => decide (b.popularity.getD 0 ≤ a.popularity.getD 0))).take 10) := hq'
    have hs := List.sorted_mergeSort htrans htotal
      (places.filter (fun q =>
        truthyQ q.popularity && decide ((7 : ℚ)/10 < q.popularity.getD 0)))
    have hsplit := List.take_append_drop 10
      ((places.filter (fun q =>
        truthyQ q.popularity && decide ((7 : ℚ)/10 < q.popularity.getD 0))).mergeSort
          (fun a b => decide (b.popularity.getD 0 ≤ a.popularity.getD 0)))
    have hqsorted : q ∈ (places.filter (fun q =>
        truthyQ q.popularity && decide ((7 : ℚ)/10 < q.popularity.getD 0))).mergeSort
          (fun a b => decide (b.popularity.getD 0 ≤ a.popularity.getD 0)) :=
      List.mem_mergeSort.mpr hq
    rw [← hsplit] at hs hqsorted
    rw [List.pairwise_append] at hs
    obtain ⟨-, -, hcross⟩ := hs
    rcases List.mem_append.mp hqsorted with h | h
    · exact absurd h hqnot2
    · exact of_decide_eq_true (hcross q' hq2 q h)
  · intro hlen
    have hle : ((places.filter (fun q =>
        truthyQ q.popularity && decide ((7 : ℚ)/10 < q.popularity.getD 0))).mergeSort
          (fun a b => decide (b.popularity.getD 0 ≤ a.popularity.getD 0))).length ≤ 10 := by
      rw [List.length_mergeSort]
      exact hlen
    show (((places.filter _).mergeSort _).take 10).Perm _
    rw [List.take_of_length_le hle]
    exact List.mergeSort_perm _ _
  · intro p1 p2 p3 p4 h1 h2 h3 h4
    have hf : [p1, p2, p3, p4].filter
        (fun q => truthyQ q.popularity && decide ((7 : ℚ)/10 < q.popularity.getD 0)) =
        [p1, p2] := by
      simp only [List.filter, h1, h2, h3, h4, truthyQ, Option.getD_some]
      norm_num
    have hsorted : List.Pairwise
        (fun a b : PlaceData => decide (b.popularity.getD 0 ≤ a.popularity.getD 0) = true)
        [p1, p2] := by
      refine List.Pairwise.cons ?_ (List.Pairwise.cons (by simp) List.Pairwise.nil)
      intro q hq
      rw [List.mem_singleton] at hq
      subst hq
      rw [h1, h2]
      norm_num
    show (([p1, p2, p3, p4].filter _).mergeSort _).take 10 = [p1, p2]
    rw [hf, List.mergeSort_of_sorted hsorted]
    rfl

/-- Witness for `get_trending_places_spec` on four concrete places with
popularity 0.9, 0.8, 0.6, 0.5. -/
theorem get_trending_places_spec_witness :
    FoursquareClient.get_trending_places
      [{ fsq_id := "t1", name := "A", categories := [], popularity := some (9/10) },
       { fsq_id := "t2", name := "B", categories := [], popularity := some (8/10) },
       { fsq_id := "t3", name := "C", categories := [], popularity := some (6/10) },
       { fsq_id := "t4", name := "D", categories := [], popularity := some (1/2) }] =
      [{ fsq_id := "t1", name := "A", categories := [], popularity := some (9/10) },
       { fsq_id := "t2", name := "B", categories := [], popularity := some (8/10) }] := by
  exact (get_trending_places_spec
      [{ fsq_id := "t1", name := "A", categories := [], popularity := some (9/10) },
       { fsq_id := "t2", name := "B", categories := [], popularity := some (8/10) },
       { fsq_id := "t3", name := "C", categories := [], popularity := some (6/10) },
       { fsq_id := "t4", name := "D", categories := [], popularity := some (1/2) }]).2.2.2.2.2.2.2
    { fsq_id := "t1", name := "A", categories := [], popularity := some (9/10) }
    { fsq_id := "t2", name := "B", categories := [], popularity := some (8/10) }
    { fsq_id := "t3", name := "C", categories := [], popularity := some (6/10) }
    { fsq_id := "t4", name := "D", categories := [], popularity := some (1/2) }
    rfl rfl rfl rfl

/-- Membership after a keyed upsert: the new business or an old entry. -/
theorem mem_saveBusinessToStore (store : List (String × Business)) (b : Business)
    (kb : String × Business) (h : kb ∈ saveBusinessToStore store b) :
    kb.2 = b ∨ kb ∈ store := by
  induction store with
  | nil =>
    rw [saveBusinessToStore] at h
    rcases List.mem_singleton.mp h with h'
    exact Or.inl (by rw [h'])
  | cons hd tl ih =>
    rw [saveBusinessToStore] at h
    by_cases hk : hd.1 = b.fsq_id
    · simp only [hk, if_true] at h
      rcases List.mem_cons.mp h with h' | h'
      · exact Or.inl (by rw [h'])
      · exact Or.inr (List.mem_cons_of_mem hd h')
    · simp only [hk, if_false] at h
      rcases List.mem_cons.mp h with h' | h'
      · exact Or.inr (by rw [h']; exact List.mem_cons_self hd tl)
      · rcases ih h' with h'' | h''
        · exact Or.inl h''
        · exact Or.inr (List.mem_cons_of_mem hd h'')

/-- A successful lookup is a member of the store at its key. -/
theorem getBusinessFromStore_mem (store : List (String × Business)) (k : String)
    (b : Business) (h : getBusinessFromStore store k = some b) : (k, b) ∈ store := by
  induction store with
  | nil => cases h
  | cons hd tl ih =>
    rw [getBusinessFromStore] at h
    by_cases hk : hd.1 = k
    · simp only [hk, if_true, Option.some.injEq] at h
      exact List.mem_cons.mpr (Or.inl (by rw [← h, ← hk]))
    · simp only [hk, if_false] at h
      exact List.mem_cons_of_mem hd (ih h)

/-- The loop of `perform_scan` keeps `first_seen ≤ last_updated ≤ now`
for every stored business, given a clock not behind the store. -/
theorem processPlaces_preserves_inv (s : MonitoringSettings) (now : ℚ)
    (places : List PlaceData) :
    ∀ (store : List (String × Business)),
      (∀ kb ∈ store, kb.2.first_seen ≤ kb.2.last_updated ∧ kb.2.last_updated ≤ now) →
      ∀ kb ∈ (processPlaces s now places store).1,
        kb.2.first_seen ≤ kb.2.last_updated ∧ kb.2.last_updated ≤ now := by
  induction places with
  | nil => intro store h kb hkb; exact h kb hkb
  | cons p rest ih =>
    intro store h kb hkb
    rw [processPlaces] at hkb
    by_cases hex : MonitoringService.should_exclude_business p s = true
    · rw [hex] at hkb
      simp only [if_true] at hkb
      exact ih store h kb hkb
    · rw [Bool.not_eq_true] at hex
      rw [hex] at hkb
      simp only [Bool.false_eq_true, if_false] at hkb
      cases hget : getBusinessFromStore store p.fsq_id with
      | some existing =>
        rw [hget] at hkb
        simp only at hkb
        have hmem := getBusinessFromStore_mem store p.fsq_id existing hget
        have hinv := h (p.fsq_id, existing) hmem
        by_cases hch : (Business.update_from_api_data existing p now).1 = true
        · rw [hch] at hkb
          simp only [if_true] at hkb
          have hsave : ∀ kb' ∈ saveBusinessToStore store
              (Business.update_from_api_data existing p now).2,
              kb'.2.first_seen ≤ kb'.2.last_updated ∧ kb'.2.last_updated ≤ now := by
            intro kb' hkb'
            rcases mem_saveBusinessToStore _ _ _ hkb' with h' | h'
            · rw [h', update_snd_first_seen, update_snd_last_updated, hch]
              simp only [if_true]
              exact ⟨le_trans hinv.1 hinv.2, le_refl now⟩
            · exact h kb' h'
          exact ih _ hsave kb hkb
        · rw [Bool.not_eq_true] at hch
          rw [hch] at hkb
          simp only [Bool.false_eq_true, if_false] at hkb
          exact ih store h kb hkb
      | none =>
        rw [hget] at hkb
        simp only at hkb
        have hsave : ∀ kb' ∈ saveBusinessToStore store
            (MonitoringService.create_business_from_place p s now),
            kb'.2.first_seen ≤ kb'.2.last_updated ∧ kb'.2.last_updated ≤ now := by
          intro kb' hkb'
          rcases mem_saveBusinessToStore _ _ _ hkb' with h' | h'
          · rw [h']
            exact ⟨le_refl now, le_refl now⟩
          · exact h kb' h'
        exact ih _ hsave kb hkb

/-- Claim C4: a freshly created business carries `first_seen =
last_updated = now`; the merge keeps `first_seen` and only ever moves
`last_updated` forward to the current time; and consequently every
business in the store satisfies `first_seen ≤ last_updated` after any
scan run at a clock not behind the store. -/
theorem first_seen_le_last_updated_invariant :
    (∀ (p : PlaceData) (s : MonitoringSettings) (now : ℚ),
      (MonitoringService.create_business_from_place p s now).first_seen = now ∧
      (MonitoringService.create_business_from_place p s now).last_updated = now) ∧
    (∀ (b : Business) (p : PlaceData) (now : ℚ),
      b.first_seen ≤ b.last_updated → b.last_updated ≤ now →
      (Business.update_from_api_data b p now).2.first_seen = b.first_seen ∧
      b.last_updated ≤ (Business.update_from_api_data b p now).2.last_updated ∧
      (Business.update_from_api_data b p now).2.first_seen ≤
        (Business.update_from_api_data b p now).2.last_updated) ∧
    (∀ (s : MonitoringSettings) (fetched : Except String (List PlaceData))
       (db : Database) (now : ℚ),
      (∀ kb ∈ db.businesses,
        kb.2.first_seen ≤ kb.2.last_updated ∧ kb.2.last_updated ≤ now) →
      ∀ kb ∈ (MonitoringService.perform_scan s fetched db now).2.businesses,
        kb.2.first_seen ≤ kb.2.last_updated) := by
  refine ⟨fun p s now => ⟨rfl, rfl⟩, ?_, ?_⟩
  · intro b p now h1 h2
    refine ⟨update_snd_first_seen b p now, ?_, ?_⟩
    · rw [update_snd_last_updated]
      by_cases hch : (Business.update_from_api_data b p now).1 = true
      · simp only [hch, if_true]
        exact h2
      · rw [Bool.not_eq_true] at hch
        simp [hch]
    · rw [update_snd_first_seen, update_snd_last_updated]
      by_cases hch : (Business.update_from_api_data b p now).1 = true
      · simp only [hch, if_true]
        exact le_trans h1 h2
      · rw [Bool.not_eq_true] at hch
        simp only [hch, Bool.false_eq_true, if_false]
        exact h1
  · intro s fetched db now h kb hkb
    cases fetched with
    | error e => exact (h kb hkb).1
    | ok places =>
      have : kb ∈ (processPlaces s now places db.businesses).1 := hkb
      exact (processPlaces_preserves_inv s now places db.businesses h kb this).1

/-- Witness for `first_seen_le_last_updated_invariant` on a concrete
merge with a strictly later clock. -/
theorem first_seen_le_last_updated_invariant_witness :
    (Business.update_from_api_data
      { fsq_id := "i1", name := "Old", categories := [],
        location := { latitude := 0, longitude := 0 }, first_seen := 1, last_updated := 2 }
      { fsq_id := "i1", name := "New", categories := [] } 3).2.first_seen = 1 ∧
    (Business.update_from_api_data
      { fsq_id := "i1", name := "Old", categories := [],
        location := { latitude := 0, longitude := 0 }, first_seen := 1, last_updated := 2 }
      { fsq_id := "i1", name := "New", categories := [] } 3).2.first_seen ≤
    (Business.update_from_api_data
      { fsq_id := "i1", name := "Old", categories := [],
        location := { latitude := 0, longitude := 0 }, first_seen := 1, last_updated := 2 }
      { fsq_id := "i1", name := "New", categories := [] } 3).2.last_updated := by
  have h := first_seen_le_last_updated_invariant.2.1
    { fsq_id := "i1", name := "Old", categories := [],
      location := { latitude := 0, longitude := 0 }, first_seen := 1, last_updated := 2 }
    { fsq_id := "i1", name := "New", categories := [] } 3
    (by norm_num) (by norm_num)
  exact ⟨h.1, h.2.2⟩

/-- A freshly created business is a fixed point of the merge with the
same fetched place: every field already carries the fetched value. -/
theorem create_then_update_stable (p : PlaceData) (s : MonitoringSettings) (now : ℚ) :
    ∀ now2, Business.update_from_api_data
      (MonitoringService.create_business_from_place p s now) p now2 =
      (false, MonitoringService.create_business_from_place p s now) := by
  apply update_stable_of_fst_false _ p now
  cases hpl : p.location with
  | none =>
    simp [update_fst_eq, hpl, MonitoringService.create_business_from_place, eqAsSet_refl]
  | some api =>
    cases hlat : api.latitude <;> cases hlng : api.longitude <;>
      simp [update_fst_eq, hpl, MonitoringService.create_business_from_place,
        eqAsSet_refl, locationFromApi, hlat, hlng]

/-- Keyed upsert preserves the keying invariant. -/
theorem wellKeyed_save (store : List (String × Business)) (b : Business)
    (h : WellKeyedStore store) : WellKeyedStore (saveBusinessToStore store b) := by
  induction store with
  | nil =>
    intro kb hkb
    rw [saveBusinessToStore] at hkb
    rw [List.mem_singleton.mp hkb]
  | cons hd tl ih =>
    intro kb hkb
    rw [saveBusinessToStore] at hkb
    by_cases hk : hd.1 = b.fsq_id
    · simp only [hk, if_true] at hkb
      rcases List.mem_cons.mp hkb with h' | h'
      · rw [h']
      · exact h kb (List.mem_cons_of_mem hd h')
    · simp only [hk, if_false] at hkb
      rcases List.mem_cons.mp hkb with h' | h'
      · rw [h']
        exact h hd (List.mem_cons_self hd tl)
      · exact ih (fun kb' hkb' => h kb' (List.mem_cons_of_mem hd hkb')) kb h'

/-- In a well-keyed store, a business found under key `k` has
`fsq_id = k`. -/
theorem get_eq_key (store : List (String × Business)) (k : String) (b : Business)
    (hw : WellKeyedStore store) (h : getBusinessFromStore store k = some b) :
    b.fsq_id = k :=
  hw (k, b) (getBusinessFromStore_mem store k b h)

/-- Lookup at the upserted key finds the upserted business. -/
theorem get_save_same (store : List (String × Business)) (b : Business) :
    getBusinessFromStore (saveBusinessToStore store b) b.fsq_id = some b := by
  induction store with
  | nil => simp [saveBusinessToStore, getBusinessFromStore]
  | cons hd tl ih =>
    rw [saveBusinessToStore]
    by_cases hk : hd.1 = b.fsq_id
    · simp [getBusinessFromStore, hk]
    · simp only [hk, if_false]
      rw [getBusinessFromStore]
      simp only [hk, if_false]
      exact ih

/-- Lookup at any other key is unaffected by an upsert. -/
theorem get_save_ne (store : List (String × Business)) (b : Business) (k : String)
    (hne : k ≠ b.fsq_id) :
    getBusinessFromStore (saveBusinessToStore store b) k =
      getBusinessFromStore store k := by
  induction store with
  | nil =>
    have h' : ¬ (b.fsq_id = k) := fun h => hne h.symm
    simp [saveBusinessToStore, getBusinessFromStore, h']
  | cons hd tl ih =>
    rw [saveBusinessToStore]
    by_cases hk : hd.1 = b.fsq_id
    · have hdk : ¬ (hd.1 = k) := fun h => hne (h.symm.trans hk)
      have hbk : ¬ (b.fsq_id = k) := fun h => hne h.symm
      simp only [hk, if_true]
      rw [getBusinessFromStore, getBusinessFromStore]
      simp [hbk, hdk]
    · simp only [hk, if_false]
      rw [getBusinessFromStore, getBusinessFromStore]
      by_cases hdk : hd.1 = k
      · simp [hdk]
      · simp only [hdk, if_false]
        exact ih

/-- The scan loop preserves the keying invariant: it only upserts
businesses at their own `fsq_id`. -/
theorem processPlaces_wellKeyed (s : MonitoringSettings) (now : ℚ)
    (places : List PlaceData) :
    ∀ store, WellKeyedStore store → WellKeyedStore (processPlaces s now places store).1 := by
  induction places with
  | nil => intro store h; exact h
  | cons p rest ih =>
    intro store h
    rw [processPlaces]
    by_cases hex : MonitoringService.should_exclude_business p s = true
    · simp only [hex, if_true]
      exact ih store h
    · rw [Bool.not_eq_true] at hex
      simp only [hex, Bool.false_eq_true, if_false]
      cases hget : getBusinessFromStore store p.fsq_id with
      | some existing =>
        by_cases hch : (Business.update_from_api_data existing p now).1 = true
        · simp only [hch, if_true]
          exact ih _ (wellKeyed_save _ _ h)
        · rw [Bool.not_eq_true] at hch
          simp only [hch, Bool.false_eq_true, if_false]
          exact ih store h
      | none =>
        simp only
        exact ih _ (wellKeyed_save _ _ h)

/-- Keys not fetched by the scan are left untouched by the loop. -/
theorem processPlaces_frame (s : MonitoringSettings) (now : ℚ)
    (places : List PlaceData) :
    ∀ store, WellKeyedStore store → ∀ k, k ∉ places.map PlaceData.fsq_id →
      getBusinessFromStore (processPlaces s now places store).1 k =
        getBusinessFromStore store k := by
  induction places with
  | nil => intro store _ k _; rfl
  | cons p rest ih =>
    intro store hw k hk
    rw [List.map_cons, List.mem_cons] at hk
    push_neg at hk
    obtain ⟨hkp, hkrest⟩ := hk
    rw [processPlaces]
    by_cases hex : MonitoringService.should_exclude_business p s = true
    · simp only [hex, if_true]
      exact ih store hw k hkrest
    · rw [Bool.not_eq_true] at hex
      simp only [hex, Bool.false_eq_true, if_false]
      cases hget : getBusinessFromStore store p.fsq_id with
      | some existing =>
        by_cases hch : (Business.update_from_api_data existing p now).1 = true
        · simp only [hch, if_true]
          have hkey : (Business.update_from_api_data existing p now).2.fsq_id = p.fsq_id := by
            rw [update_snd_fsq_id]
            exact get_eq_key store p.fsq_id existing hw hget
          rw [ih _ (wellKeyed_save _ _ hw) k hkrest]
          rw [get_save_ne]
          rw [hkey]
          exact hkp
        · rw [Bool.not_eq_true] at hch
          simp only [hch, Bool.false_eq_true, if_false]
          exact ih store hw k hkrest
      | none =>
        simp only
        rw [ih _ (wellKeyed_save _ _ hw) k hkrest]
        rw [get_save_ne]
        exact hkp

/-- After one scan over places with pairwise-distinct identifiers, every
surviving (non-excluded) place resolves in the post-scan store to a
business that is a fixed point of the merge with that place. -/
theorem processPlaces_lookup_stable (s : MonitoringSettings) (now : ℚ)
    (places : List PlaceData) :
    ∀ store, WellKeyedStore store → (places.map PlaceData.fsq_id).Nodup →
      ∀ p ∈ places, MonitoringService.should_exclude_business p s = false →
        ∃ b, getBusinessFromStore (processPlaces s now places store).1 p.fsq_id = some b ∧
          ∀ now2, Business.update_from_api_data b p now2 = (false, b) := by
  induction places with
  | nil => intro store _ _ p hp; cases hp
  | cons q rest ih =>
    intro store hw hnodup p hp hexcl
    rw [List.map_cons, List.nodup_cons] at hnodup
    obtain ⟨hqfresh, hrest⟩ := hnodup
    rw [processPlaces]
    by_cases hqex : MonitoringService.should_exclude_business q s = true
    · simp only [hqex, if_true]
      rcases List.mem_cons.mp hp with h' | h'
      · rw [h'] at hexcl
        rw [hexcl] at hqex
        cases hqex
      · exact ih store hw hrest p h' hexcl
    · rw [Bool.not_eq_true] at hqex
      simp only [hqex, Bool.false_eq_true, if_false]
      cases hget : getBusinessFromStore store q.fsq_id with
      | some existing =>
        by_cases hch : (Business.update_from_api_data existing q now).1 = true
        · simp only [hch, if_true]
          rcases List.mem_cons.mp hp with h' | h'
          · subst h'
            refine ⟨(Business.update_from_api_data existing p now).2, ?_, ?_⟩
            · have hkey : (Business.update_from_api_data existing p now).2.fsq_id =
                  p.fsq_id := by
                rw [update_snd_fsq_id]
                exact get_eq_key store p.fsq_id existing hw hget
              rw [processPlaces_frame s now rest _ (wellKeyed_save _ _ hw) p.fsq_id hqfresh]
              rw [← hkey, get_save_same]
            · exact update_update_stable existing p now
          · exact ih _ (wellKeyed_save _ _ hw) hrest p h' hexcl
        · rw [Bool.not_eq_true] at hch
          simp only [hch, Bool.false_eq_true, if_false]
          rcases List.mem_cons.mp hp with h' | h'
          · subst h'
            refine ⟨existing, ?_, update_stable_of_fst_false existing p now hch⟩
            rw [processPlaces_frame s now rest store hw p.fsq_id hqfresh]
            exact hget
          · exact ih store hw hrest p h' hexcl
      | none =>
        simp only
        rcases List.mem_cons.mp hp with h' | h'
        · subst h'
          refine ⟨MonitoringService.create_business_from_place p s now, ?_,
            create_then_update_stable p s now⟩
          rw [processPlaces_frame s now rest _ (wellKeyed_save _ _ hw) p.fsq_id hqfresh]
          exact get_save_same store (MonitoringService.create_business_from_place p s now)
        · exact ih _ (wellKeyed_save _ _ hw) hrest p h' hexcl

/-- If every surviving place already resolves to a fixed point of the
merge, the scan loop changes nothing and reports no new and no updated
businesses. -/
theorem processPlaces_no_change (s : MonitoringSettings) (now : ℚ)
    (places : List PlaceData) :
    ∀ store,
      (∀ p ∈ places, MonitoringService.should_exclude_business p s = false →
        ∃ b, getBusinessFromStore store p.fsq_id = some b ∧
          ∀ now2, Business.update_from_api_data b p now2 = (false, b)) →
      processPlaces s now places store = (store, [], []) := by
  induction places with
  | nil => intro store _; rfl
  | cons q rest ih =>
    intro store h
    rw [processPlaces]
    by_cases hqex : MonitoringService.should_exclude_business q s = true
    · simp only [hqex, if_true]
      exact ih store (fun p hp => h p (List.mem_cons_of_mem q hp))
    · rw [Bool.not_eq_true] at hqex
      simp only [hqex, Bool.false_eq_true, if_false]
      obtain ⟨b, hget, hstab⟩ := h q (List.mem_cons_self q rest) hqex
      rw [hget]
      simp only
      have hflag : (Business.update_from_api_data b q now).1 = false := by
        rw [hstab now]
      simp only [hflag, Bool.false_eq_true, if_false]
      exact ih store (fun p hp => h p (List.mem_cons_of_mem q hp))

/-- Claim C3 as stated fails when the fetched list carries two places
with the same identifier but different data: scanning twice over the
same such list still reports updated businesses on the second run,
because within each run the later duplicate overwrites the earlier one. -/
theorem scan_idempotence_counterexample :
    ¬ ((MonitoringService.perform_scan {}
        (Except.ok [{ fsq_id := "dup", name := "A", categories := [] },
                    { fsq_id := "dup", name := "B", categories := [] }])
        (MonitoringService.perform_scan {}
          (Except.ok [{ fsq_id := "dup", name := "A", categories := [] },
                      { fsq_id := "dup", name := "B", categories := [] }])
          ({} : Database) 0).2
        1).1.new_businesses = 0 ∧
      (MonitoringService.perform_scan {}
        (Except.ok [{ fsq_id := "dup", name := "A", categories := [] },
                    { fsq_id := "dup", name := "B", categories := [] }])
        (MonitoringService.perform_scan {}
          (Except.ok [{ fsq_id := "dup", name := "A", categories := [] },
                      { fsq_id := "dup", name := "B", categories := [] }])
          ({} : Database) 0).2
        1).1.updated_businesses = 0) := by
  decide

/-- Claim C3, amended: when the fetched places carry pairwise-distinct
identifiers (and the store keys each business under its own identifier,
as the database does), running the scan twice over the same fetched list
reports zero new and zero updated businesses on the second run and
leaves the business store of the first run unchanged. -/
theorem scan_idempotent_spec_amended :
    ∀ (s : MonitoringSettings) (places : List PlaceData) (db : Database) (now1 now2 : ℚ),
      WellKeyedStore db.businesses →
      (places.map PlaceData.fsq_id).Nodup →
      (MonitoringService.perform_scan s (Except.ok places)
        (MonitoringService.perform_scan s (Except.ok places) db now1).2
        now2).1.new_businesses = 0 ∧
      (MonitoringService.perform_scan s (Except.ok places)
        (MonitoringService.perform_scan s (Except.ok places) db now1).2
        now2).1.updated_businesses = 0 ∧
      (MonitoringService.perform_scan s (Except.ok places)
        (MonitoringService.perform_scan s (Except.ok places) db now1).2
        now2).2.businesses =
        (MonitoringService.perform_scan s (Except.ok places) db now1).2.businesses := by
  intro s places db now1 now2 hwk hnodup
  have hstable := processPlaces_lookup_stable s now1 places db.businesses hwk hnodup
  have hnc := processPlaces_no_change s now2 places
    (processPlaces s now1 places db.businesses).1
    (fun p hp hexcl => hstable p hp hexcl)
  have hdb1 : (MonitoringService.perform_scan s (Except.ok places) db now1).2.businesses =
      (processPlaces s now1 places db.businesses).1 := rfl
  refine ⟨?_, ?_, ?_⟩ <;>
    simp [MonitoringService.perform_scan, hdb1, hnc,
      MonitoringService.generate_notifications]

/-- Witness for `scan_idempotent_spec_amended` on two distinct places
over an empty store. -/
theorem scan_idempotent_spec_amended_witness :
    (MonitoringService.perform_scan {}
      (Except.ok [{ fsq_id := "a", name := "A", categories := [] },
                  { fsq_id := "b", name := "B", categories := [] }])
      (MonitoringService.perform_scan {}
        (Except.ok [{ fsq_id := "a", name := "A", categories := [] },
                    { fsq_id := "b", name := "B", categories := [] }])
        ({} : Database) 0).2
      1).1.new_businesses = 0 ∧
    (MonitoringService.perform_scan {}
      (Except.ok [{ fsq_id := "a", name := "A", categories := [] },
                  { fsq_id := "b", name := "B", categories := [] }])
      (MonitoringService.perform_scan {}
        (Except.ok [{ fsq_id := "a", name := "A", categories := [] },
                    { fsq_id := "b", name := "B", categories := [] }])
        ({} : Database) 0).2
      1).1.updated_businesses = 0 := by
  have h := scan_idempotent_spec_amended {}
    [{ fsq_id := "a", name := "A", categories := [] },
     { fsq_id := "b", name := "B", categories := [] }]
    {} 0 1
    (fun kb hkb => absurd hkb (List.not_mem_nil kb))
    (by decide)
  exact ⟨h.1, h.2.1⟩
